import Mathlib

/-!
Verification development for the my-food-sorted backend (`src/server.ts`,
`src/middleware/auth.ts`, `db/schema.sql`).  The TypeScript route handlers and
helpers are shallowly embedded as executable Lean definitions; numbers are
modelled as exact rationals, JS strings as Lean strings (code-unit subtleties
do not arise for the inputs considered), and the request bodies' dynamic JSON
fields as `Option` types where the code only distinguishes presence/typeof.
-/

namespace MFS

/-! ### JS string helpers -/

/-- JS whitespace characters relevant to `String.prototype.trim` (the common
ASCII set; the handlers never receive the exotic Unicode space classes). -/
def isJsWs (c : Char) : Bool :=
  c = ' ' || c = '\t' || c = '\n' || c = '\r' || c = '\x0b' || c = '\x0c'

/-- `String.prototype.trim`. -/
def jsTrim (s : String) : String :=
  ((s.toList.dropWhile isJsWs).reverse.dropWhile isJsWs).reverse.asString

/-- `String.prototype.slice(0, n)`. -/
def jsSlice (s : String) (n : Nat) : String :=
  (s.toList.take n).asString

/-- `String.prototype.toLowerCase` for the ASCII range (the only characters
the handlers compare after lowercasing). -/
def jsToLower (s : String) : String :=
  (s.toList.map (fun c =>
    if 'A' ≤ c && c ≤ 'Z' then Char.ofNat (c.toNat + 32) else c)).asString

/-- Split a character list at every occurrence of `sep` (like
`String.prototype.split` with a one-character separator). -/
def splitOnCharList (sep : Char) : List Char → List (List Char)
  | [] => [[]]
  | x :: xs =>
    let rest := splitOnCharList sep xs
    if x = sep then [] :: rest
    else
      match rest with
      | [] => [[x]]
      | h :: t => (x :: h) :: t

/-- Index of the first occurrence of a character, if any. -/
def firstIdxOf (c : Char) : List Char → Option Nat
  | [] => none
  | x :: xs => if x = c then some 0 else (firstIdxOf c xs).map (· + 1)

/-- Index of the last occurrence of a character, if any. -/
def lastIdxOf (c : Char) : List Char → Option Nat
  | [] => none
  | x :: xs =>
    match lastIdxOf c xs with
    | some k => some (k + 1)
    | none => if x = c then some 0 else none

/-! ### JSON values and `JSON.parse`

`parseRecipeJSON` feeds the brace span to the JS runtime's `JSON.parse`.  We
embed a parser for the strict JSON grammar (RFC 8259) that `JSON.parse`
implements: no trailing commas, no leading zeros, `\uXXXX` escapes, and
whitespace limited to space/tab/LF/CR.  Numbers are modelled as exact
rationals rather than binary floats; no claim below depends on float
rounding.  Duplicate object keys are kept in order; JS property access sees
the last occurrence, modelled by `lookupLast`. -/

inductive Json where
  | null
  | bool (b : Bool)
  | num (q : ℚ)
  | str (s : String)
  | arr (elems : List Json)
  | obj (fields : List (String × Json))

/-- JSON whitespace (RFC 8259: space, tab, LF, CR). -/
def jsonWs (c : Char) : Bool :=
  c = ' ' || c = '\t' || c = '\n' || c = '\r'

def skipWs (cs : List Char) : List Char := cs.dropWhile jsonWs

def hexVal (c : Char) : Option Nat :=
  if '0' ≤ c ∧ c ≤ '9' then some (c.toNat - 48)
  else if 'a' ≤ c ∧ c ≤ 'f' then some (c.toNat - 87)
  else if 'A' ≤ c ∧ c ≤ 'F' then some (c.toNat - 55)
  else none

/-- Body of a JSON string literal, after the opening quote. -/
def parseStrBody : Nat → List Char → List Char → Option (String × List Char)
  | 0, _, _ => none
  | _, [], _ => none
  | f + 1, c :: rest, acc =>
    if c = '"' then some (acc.reverse.asString, rest)
    else if c = '\\' then
      match rest with
      | [] => none
      | e :: r2 =>
        if e = '"' then parseStrBody f r2 ('"' :: acc)
        else if e = '\\' then parseStrBody f r2 ('\\' :: acc)
        else if e = '/' then parseStrBody f r2 ('/' :: acc)
        else if e = 'b' then parseStrBody f r2 ('\x08' :: acc)
        else if e = 'f' then parseStrBody f r2 ('\x0c' :: acc)
        else if e = 'n' then parseStrBody f r2 ('\n' :: acc)
        else if e = 'r' then parseStrBody f r2 ('\r' :: acc)
        else if e = 't' then parseStrBody f r2 ('\t' :: acc)
        else if e = 'u' then
          match r2 with
          | h1 :: h2 :: h3 :: h4 :: r3 =>
            match hexVal h1, hexVal h2, hexVal h3, hexVal h4 with
            | some a, some b, some c2, some d =>
              parseStrBody f r3 (Char.ofNat (((a * 16 + b) * 16 + c2) * 16 + d) :: acc)
            | _, _, _, _ => none
          | _ => none
        else none
    else if c.toNat < 32 then none
    else parseStrBody f rest (c :: acc)

def digitsToNat (ds : List Char) : Nat :=
  ds.foldl (fun n c => n * 10 + (c.toNat - 48)) 0

/-- The unsigned part of a JSON number token:
`(0|[1-9][0-9]*)(\.[0-9]+)?([eE][+-]?[0-9]+)?`, evaluated exactly in ℚ. -/
def parseNumberMag (cs1 : List Char) : Option (ℚ × List Char) :=
  let (ds0, rest0) := cs1.span Char.isDigit
  if ds0.isEmpty then none
  else if ds0.head? = some '0' ∧ ds0.length ≠ 1 then none
  else
    let (dsFrac, rest1) := match rest0 with
      | '.' :: tl => tl.span Char.isDigit
      | _ => ([], rest0)
    if rest0.head? = some '.' ∧ dsFrac.isEmpty then none
    else
      let (expOk, expNeg, dsExp, rest2) := match rest1 with
        | 'e' :: '+' :: tl => let (ds, tl2) := tl.span Char.isDigit; (!ds.isEmpty, false, ds, tl2)
        | 'e' :: '-' :: tl => let (ds, tl2) := tl.span Char.isDigit; (!ds.isEmpty, true, ds, tl2)
        | 'e' :: tl => let (ds, tl2) := tl.span Char.isDigit; (!ds.isEmpty, false, ds, tl2)
        | 'E' :: '+' :: tl => let (ds, tl2) := tl.span Char.isDigit; (!ds.isEmpty, false, ds, tl2)
        | 'E' :: '-' :: tl => let (ds, tl2) := tl.span Char.isDigit; (!ds.isEmpty, true, ds, tl2)
        | 'E' :: tl => let (ds, tl2) := tl.span Char.isDigit; (!ds.isEmpty, false, ds, tl2)
        | _ => (true, false, [], rest1)
      if !expOk then none
      else
        let mantissa : ℚ :=
          (digitsToNat ds0 : ℚ) + (digitsToNat dsFrac : ℚ) / (10 : ℚ) ^ dsFrac.length
        let expo : ℤ := if expNeg then -(digitsToNat dsExp : ℤ) else (digitsToNat dsExp : ℤ)
        some (mantissa * (10 : ℚ) ^ expo, rest2)

/-- A JSON number token, with its optional leading minus sign. -/
def parseNumber (cs : List Char) : Option (ℚ × List Char) :=
  match cs with
  | '-' :: tl => (parseNumberMag tl).map (fun p => (-p.1, p.2))
  | _ => parseNumberMag cs

mutual

def parseValue : Nat → List Char → Option (Json × List Char)
  | 0, _ => none
  | f + 1, cs0 =>
    match skipWs cs0 with
    | [] => none
    | '{' :: rest =>
      (match skipWs rest with
       | '}' :: r2 => some (Json.obj [], r2)
       | _ => parseMembers f rest [])
    | '[' :: rest =>
      (match skipWs rest with
       | ']' :: r2 => some (Json.arr [], r2)
       | _ => parseElems f rest [])
    | '"' :: rest =>
      (match parseStrBody (rest.length + 1) rest [] with
       | some (s, r) => some (Json.str s, r)
       | none => none)
    | 't' :: rest => if rest.take 3 = ['r', 'u', 'e'] then some (Json.bool true, rest.drop 3) else none
    | 'f' :: rest => if rest.take 4 = ['a', 'l', 's', 'e'] then some (Json.bool false, rest.drop 4) else none
    | 'n' :: rest => if rest.take 3 = ['u', 'l', 'l'] then some (Json.null, rest.drop 3) else none
    | cs => (match parseNumber cs with
             | some (q, r) => some (Json.num q, r)
             | none => none)

def parseMembers : Nat → List Char → List (String × Json) → Option (Json × List Char)
  | 0, _, _ => none
  | f + 1, cs, acc =>
    match skipWs cs with
    | '"' :: rest =>
      (match parseStrBody (rest.length + 1) rest [] with
       | some (k, r) =>
         (match skipWs r with
          | ':' :: r2 =>
            (match parseValue f r2 with
             | some (v, r3) =>
               (match skipWs r3 with
                | ',' :: r4 => parseMembers f r4 (acc ++ [(k, v)])
                | '}' :: r4 => some (Json.obj (acc ++ [(k, v)]), r4)
                | _ => none)
             | none => none)
          | _ => none)
       | none => none)
    | _ => none

def parseElems : Nat → List Char → List Json → Option (Json × List Char)
  | 0, _, _ => none
  | f + 1, cs, acc =>
    match parseValue f cs with
    | some (v, r) =>
      (match skipWs r with
       | ',' :: r2 => parseElems f r2 (acc ++ [v])
       | ']' :: r2 => some (Json.arr (acc ++ [v]), r2)
       | _ => none)
    | none => none

end

/-- `JSON.parse`: a single JSON value surrounded only by whitespace. -/
def parseJson (s : String) : Option Json :=
  let cs := s.toList
  match parseValue (cs.length + 2) cs with
  | some (v, rest) => if (skipWs rest).isEmpty then some v else none
  | none => none

/-! ### parseRecipeJSON (`server.ts` lines 479-491) -/

/-- The span matched by the regex `\x7b[\s\S]*\x7d`: from the first `\x7b` to
the last `\x7d`, provided the latter comes strictly after the former (greedy,
not balance-matched). -/
def braceSpan (t : String) : Option String :=
  match firstIdxOf '{' t.toList, lastIdxOf '}' t.toList with
  | some i, some j =>
    if i < j then some (((t.toList.drop i).take (j - i + 1)).asString) else none
  | _, _ => none

/-- JS property access on an object built by `JSON.parse`: with duplicate
keys, the last occurrence wins. -/
def lookupLast (fields : List (String × Json)) (k : String) : Option Json :=
  ((fields.filter (fun p => p.1 == k)).getLast?).map (fun p => p.2)

/-- The acceptance test `parsed && typeof parsed === 'object' &&
Array.isArray(parsed.recipes)`.  A successfully parsed span starting with
`\x7b` is necessarily an object, so the object case is the only accepting one. -/
def isRecipesArr (v : Json) : Bool :=
  match v with
  | Json.obj fields =>
    (match lookupLast fields "recipes" with
     | some (Json.arr _) => true
     | _ => false)
  | _ => false

/-- `parseRecipeJSON` (`server.ts` 479-491). -/
def parseRecipeJSON (t : String) : Option Json :=
  match braceSpan t with
  | none => none
  | some s =>
    match parseJson s with
    | none => none
    | some v => if isRecipesArr v then some v else none

/-! ### messageWithoutJsonBlock (`server.ts` 493-501) and the `/chat`
display message (`server.ts` 661-662) -/

/-- Is `needle` a prefix of `hay`? -/
def isPrefixList : List Char → List Char → Bool
  | [], _ => true
  | _ :: _, [] => false
  | a :: as', b :: bs => a = b && isPrefixList as' bs

/-- First index `≥ i` (the index carried along) at which `needle` occurs in
the scanned suffix. -/
def findSub : List Char → List Char → Nat → Option Nat
  | [], needle, i => if needle.isEmpty then some i else none
  | c :: rest, needle, i =>
    if isPrefixList needle (c :: rest) then some i
    else findSub rest needle (i + 1)

/-- First occurrence of `needle` in `hay` at an index `≥ start`. -/
def findFrom (hay needle : List Char) (start : Nat) : Option Nat :=
  findSub (hay.drop start) needle start

def fenceOpen : List Char := "```json".toList

def fenceClose : List Char := "```".toList

/-- One global pass of `text.replace(/```json\s*[\s\S]*?```/g, '')`.  The
regex is equivalent to lazily matching from each literal ```` ```json ````
to the earliest following ```` ``` ```` (the `\s*` is absorbed by the lazy
any-character part); replacement does not rescan across a splice boundary,
matching JS `String.replace` with a global regex. -/
def stripFencesAux : Nat → List Char → List Char
  | 0, cs => cs
  | f + 1, cs =>
    match findSub cs fenceOpen 0 with
    | none => cs
    | some i =>
      match findFrom cs fenceClose (i + 7) with
      | none => cs
      | some j => cs.take i ++ stripFencesAux f (cs.drop (j + 3))

def stripFences (s : String) : String :=
  (stripFencesAux (s.toList.length + 1) s.toList).asString

/-- JS `String.replace` with a string pattern: removes the first occurrence
only. -/
def replaceFirstStr (s pat : String) : String :=
  match findFrom s.toList pat.toList 0 with
  | none => s
  | some i => ((s.toList.take i) ++ (s.toList.drop (i + pat.toList.length))).asString

/-- `out.replace(/\n\x7b3,\x7d/g, '\n\n')`: every maximal run of three or
more newlines becomes exactly two. -/
def collapseNlsAux : Nat → List Char → List Char
  | 0, cs => cs
  | _, [] => []
  | f + 1, c :: rest =>
    if c = '\n' then
      let nls := rest.takeWhile (fun x => x = '\n')
      let rest' := rest.dropWhile (fun x => x = '\n')
      (if nls.length + 1 ≥ 3 then ['\n', '\n'] else '\n' :: nls) ++ collapseNlsAux f rest'
    else c :: collapseNlsAux f rest

def collapseNls (s : String) : String :=
  (collapseNlsAux (s.toList.length + 1) s.toList).asString

/-- `messageWithoutJsonBlock` (`server.ts` 493-501): strip all fenced
```` ```json ```` blocks, then remove from that result the first occurrence
of the brace span matched against the ORIGINAL text, collapse newline runs,
trim; an empty (falsy) result falls back to the full original text. -/
def messageWithoutJsonBlock (text : String) : String :=
  let out1 := stripFences text
  let out2 := match braceSpan text with
    | some sp => replaceFirstStr out1 sp
    | none => out1
  let r := jsTrim (collapseNls out2)
  if r = "" then text else r

/-- The `/chat` handler's `displayMessage` (`server.ts` 661-662). -/
def chatDisplayMessage (assistantText : String) : String :=
  match parseRecipeJSON assistantText with
  | some _ => messageWithoutJsonBlock assistantText
  | none => assistantText

/-- Does the text contain a complete fenced ```` ```json ... ``` ```` block? -/
def hasJsonFence (s : String) : Bool :=
  match findSub s.toList fenceOpen 0 with
  | some i => (findFrom s.toList fenceClose (i + 7)).isSome
  | none => false

/-- Modelled from the words of claim C9 (for comparison with the code):
remove the fenced ```json block, OR, only failing that, the greedy
first-brace-to-last-brace span; collapse runs of three or more newlines to
two; if this removal leaves an empty string, return the original text.
No trimming is mentioned by the claim. -/
def claimC9Display (text : String) : String :=
  let stripped :=
    if hasJsonFence text then stripFences text
    else match braceSpan text with
      | some sp => replaceFirstStr text sp
      | none => text
  let r := collapseNls stripped
  if r = "" then text else r

/-- The amended claim C9, as a definition in its words: all fenced ```json
blocks removed, then additionally the first occurrence (in the fence-stripped
text) of the original text's greedy brace span removed, newline runs of three
or more collapsed to two, and the result trimmed; if that leaves the empty
string, the original full text is returned. -/
def claimC9DisplayAmended (text : String) : String :=
  let fenceStripped := stripFences text
  let spanStripped := match braceSpan text with
    | some sp => replaceFirstStr fenceStripped sp
    | none => fenceStripped
  let r := jsTrim (collapseNls spanStripped)
  if r = "" then text else r

/-! ### Relational rows (`db/schema.sql`) and the shopping-list aggregation
(`server.ts` 809-846) -/

structure IngredientRow where
  id : Nat
  recipe_id : Nat
  ingredient_name : String
  quantity : Option ℚ
  unit : Option String
  category : Option String
  estimated_price : Option ℚ
deriving DecidableEq

/-- The aggregation key of the `GROUP BY`: `(i.ingredient_name,
COALESCE(i.unit, ''), i.category)`.  SQL `GROUP BY` places all NULL
categories in one group, modelled by grouping on `Option String`. -/
structure AggKey where
  name : String
  unit : String
  category : Option String
deriving DecidableEq

def ingKey (i : IngredientRow) : AggKey :=
  ⟨i.ingredient_name, i.unit.getD "", i.category⟩

/-- SQL `SUM`: ignores NULL inputs and is NULL when every input is NULL. -/
def sqlSumQ (xs : List (Option ℚ)) : Option ℚ :=
  let vs := xs.filterMap id
  if vs.isEmpty then none else some vs.sum

/-- Distinct keys in order of first occurrence (the model's deterministic
stand-in for the unspecified `GROUP BY` output order). -/
def dedupFirst {α : Type} [DecidableEq α] : List α → List α
  | [] => []
  | k :: ks => k :: (dedupFirst ks).filter (fun k' => k' ≠ k)

def groupKeys (ings : List IngredientRow) : List AggKey :=
  dedupFirst (ings.map ingKey)

/-- A `shopping_list_items` row minus its identity columns: what the
aggregation inserts and what `GET /shopping-list` returns per item. -/
structure ShoppingItemRow where
  ingredient_name : String
  quantity : Option ℚ
  unit : Option String
  category : Option String
  estimated_price : Option ℚ
  checked : Bool
deriving DecidableEq

/-- The consolidated item inserted for one group: summed quantity and price,
`row.unit === '' ? null : row.unit` reversing the COALESCE, `checked =
FALSE`. -/
def aggRowFor (ings : List IngredientRow) (k : AggKey) : ShoppingItemRow :=
  let grp := ings.filter (fun i => ingKey i = k)
  { ingredient_name := k.name
    quantity := sqlSumQ (grp.map (fun i => i.quantity))
    unit := if k.unit = "" then none else some k.unit
    category := k.category
    estimated_price := sqlSumQ (grp.map (fun i => i.estimated_price))
    checked := false }

/-- The full aggregation result (`server.ts` 809-841): one consolidated item
per distinct key. -/
def aggregateItems (ings : List IngredientRow) : List ShoppingItemRow :=
  (groupKeys ings).map (aggRowFor ings)

def itemKey (it : ShoppingItemRow) : AggKey :=
  ⟨it.ingredient_name, it.unit.getD "", it.category⟩

/-! ### POST /meal-plan (`server.ts` 681-769)

Request-body fields are dynamic JSON; the handler only distinguishes
"is a number" / "is a string" / otherwise, so each field is modelled as an
`Option` whose `none` covers the absent and wrongly-typed cases.  `x || d`
on strings also treats `""` as falsy, handled by `strOr`. -/

def strOr (o : Option String) (d : String) : String :=
  match o with
  | some s => if s = "" then d else s
  | none => d

structure MealPlanRow where
  id : Nat
  user_id : Nat
  plan_name : String
  total_estimated_cost : ℚ
  servings : Int
  status : String
deriving DecidableEq

structure RecipeRow where
  id : Nat
  meal_plan_id : Nat
  day_of_week : String
  meal_slot : String
  title : String
  instructions : String
  prep_time : Option ℚ
  cook_time : Option ℚ
  estimated_cost : ℚ
  calories : Option ℚ
  protein : Option ℚ
  carbs : Option ℚ
  fat : Option ℚ
deriving DecidableEq

structure DB where
  meal_plans : List MealPlanRow
  recipes : List RecipeRow
  ingredients : List IngredientRow
deriving DecidableEq

structure IngReq where
  ingredient_name : Option String
  quantity : Option ℚ
  unit : Option String
  category : Option String
  estimated_price : Option ℚ

structure RecipeReq where
  day_of_week : Option String
  meal_slot : Option String
  title : Option String
  instructions : Option String
  prep_time : Option ℚ
  cook_time : Option ℚ
  estimated_cost : Option ℚ
  calories : Option ℚ
  protein : Option ℚ
  carbs : Option ℚ
  fat : Option ℚ
  ingredients : Option (List IngReq)

structure MealPlanReq where
  plan_name : Option String
  servings : Option Int
  recipes : Option (List RecipeReq)

/-- Field coercions of `server.ts` 713-723. -/
def coerceRecipeRow (mealPlanId rid : Nat) (r : RecipeReq) : RecipeRow :=
  { id := rid
    meal_plan_id := mealPlanId
    day_of_week := jsSlice (strOr r.day_of_week "Monday") 20
    meal_slot := jsSlice (strOr r.meal_slot "dinner") 50
    title := jsSlice (strOr r.title "Untitled") 255
    instructions := strOr r.instructions ""
    prep_time := r.prep_time
    cook_time := r.cook_time
    estimated_cost := r.estimated_cost.getD 0
    calories := r.calories
    protein := r.protein
    carbs := r.carbs
    fat := r.fat }

/-- Field coercions of `server.ts` 736-740. -/
def coerceIngRow (recipeId iid : Nat) (g : IngReq) : IngredientRow :=
  { id := iid
    recipe_id := recipeId
    ingredient_name := jsSlice (strOr g.ingredient_name "Unknown") 255
    quantity := g.quantity
    unit := g.unit.map (fun u => jsSlice u 50)
    category := g.category.map (fun c => jsSlice c 100)
    estimated_price := g.estimated_price }

/-- Execution state of the handler's insert sequence.  node-postgres runs
every statement in auto-commit mode — the handler issues no
BEGIN/COMMIT/ROLLBACK — so each successful statement's effect is durable
immediately.  `failAt` (below) injects a database error into the n-th
statement; once a statement throws, the JS exception skips every later
statement. -/
structure ExecSt where
  db : DB
  stmtIdx : Nat
  failed : Bool

def execStmt (failAt : Option Nat) (st : ExecSt) (f : DB → DB) : ExecSt :=
  if st.failed then st
  else if failAt = some st.stmtIdx then { st with stmtIdx := st.stmtIdx + 1, failed := true }
  else { db := f st.db, stmtIdx := st.stmtIdx + 1, failed := false }

def insertPlanRow (row : MealPlanRow) (db : DB) : DB :=
  { db with meal_plans := db.meal_plans ++ [row] }

def insertRecipeRow (row : RecipeRow) (db : DB) : DB :=
  { db with recipes := db.recipes ++ [row] }

def insertIngredientRow (row : IngredientRow) (db : DB) : DB :=
  { db with ingredients := db.ingredients ++ [row] }

def updatePlanCost (pid : Nat) (total : ℚ) (db : DB) : DB :=
  { db with meal_plans :=
      db.meal_plans.map (fun p => if p.id = pid then { p with total_estimated_cost := total } else p) }

/-- One loop iteration of `server.ts` 712-748: the recipe insert followed by
its ingredient inserts.  SERIAL ids are the next free index. -/
def recipeStep (failAt : Option Nat) (pid : Nat) (st : ExecSt) (r : RecipeReq) : ExecSt :=
  let rid := st.db.recipes.length + 1
  let st' := execStmt failAt st (insertRecipeRow (coerceRecipeRow pid rid r))
  (r.ingredients.getD []).foldl
    (fun st2 g =>
      execStmt failAt st2 (insertIngredientRow (coerceIngRow rid (st2.db.ingredients.length + 1) g)))
    st'

/-- The accumulated `totalEstimatedCost` (`server.ts` 703, 719, 725):
per-recipe `estimated_cost` when numeric, else 0. -/
def reqTotalCost (rs : List RecipeReq) : ℚ :=
  (rs.map (fun r => r.estimated_cost.getD 0)).sum

/-- The insert sequence of `server.ts` 701-753: plan row with placeholder
cost 0, the recipes with their ingredients, then the total-cost update. -/
def runMealPlanInserts (db : DB) (uid : Nat) (name : String) (servings : Int)
    (rs : List RecipeReq) (failAt : Option Nat) : ExecSt :=
  let pid := db.meal_plans.length + 1
  let st1 := execStmt failAt ⟨db, 0, false⟩
    (insertPlanRow ⟨pid, uid, jsTrim name, 0, servings, "draft"⟩)
  let st2 := rs.foldl (recipeStep failAt pid) st1
  execStmt failAt st2 (updatePlanCost pid (reqTotalCost rs))

/-- The POST /meal-plan handler (`server.ts` 681-769): request validation,
then the insert sequence; a thrown statement reaches the catch block (500)
with every earlier statement's effect still committed. -/
def postMealPlan (db : DB) (uid : Nat) (req : MealPlanReq) (failAt : Option Nat) :
    Nat × DB :=
  match req.plan_name, req.servings, req.recipes with
  | some n, some s, some rs =>
    if jsTrim n ≠ "" ∧ 1 ≤ s ∧ rs.length ≠ 0 then
      let st := runMealPlanInserts db uid n s rs failAt
      if st.failed then (500, st.db) else (201, st.db)
    else (400, db)
  | _, _, _ => (400, db)

/-! ### GET /shopping-list/:plan_id (`server.ts` 771-874) -/

structure ShoppingListRow where
  id : Nat
  meal_plan_id : Nat
  total_cost : ℚ
deriving DecidableEq

structure SLItemRow where
  id : Nat
  shopping_list_id : Nat
  item : ShoppingItemRow
deriving DecidableEq

structure SLState where
  lists : List ShoppingListRow
  items : List SLItemRow
  nextItemId : Nat
deriving DecidableEq

/-- The join `ingredients i JOIN recipes r ON r.id = i.recipe_id WHERE
r.meal_plan_id = $1`. -/
def planIngredients (db : DB) (pid : Nat) : List IngredientRow :=
  db.ingredients.filter
    (fun i => db.recipes.any (fun r => r.id = i.recipe_id ∧ r.meal_plan_id = pid))

/-- `ORDER BY category NULLS LAST, ingredient_name` as a deterministic
comparator (ties beyond the two sort columns keep insertion order via a
stable sort). -/
def itemLE (a b : ShoppingItemRow) : Bool :=
  match a.category, b.category with
  | some _, none => true
  | none, some _ => false
  | some ca, some cb => if ca = cb then a.ingredient_name ≤ b.ingredient_name else ca < cb
  | none, none => a.ingredient_name ≤ b.ingredient_name

def insertItemSorted (x : ShoppingItemRow) : List ShoppingItemRow → List ShoppingItemRow
  | [] => [x]
  | y :: ys => if itemLE x y then x :: y :: ys else y :: insertItemSorted x ys

def sortItems : List ShoppingItemRow → List ShoppingItemRow
  | [] => []
  | x :: xs => insertItemSorted x (sortItems xs)

structure SLOutput where
  shopping_list_id : Nat
  plan_id : Nat
  items : List ShoppingItemRow
  total_cost : ℚ
deriving DecidableEq

/-- Total cost: the sum of the non-null group prices (`server.ts` 823-827). -/
def slTotalCost (aggRows : List ShoppingItemRow) : ℚ :=
  ((aggRows.map (fun it => it.estimated_price)).filterMap id).sum

/-- SERIAL ids for the freshly inserted `shopping_list_items` rows. -/
def withIds (base lid : Nat) : List ShoppingItemRow → List SLItemRow
  | [] => []
  | it :: rest => ⟨base, lid, it⟩ :: withIds (base + 1) lid rest

/-- `server.ts` 809-866: aggregation, item reinsertion, total update, and the
final ordered SELECT, for an already-resolved shopping-list id. -/
def finishList (db : DB) (pid lid : Nat) (sl1 : SLState) : SLState × SLOutput :=
  let aggRows := aggregateItems (planIngredients db pid)
  let totalCost := slTotalCost aggRows
  let newItems := withIds sl1.nextItemId lid aggRows
  let sl2 : SLState :=
    ⟨sl1.lists.map (fun l => if l.id = lid then { l with total_cost := totalCost } else l),
     sl1.items ++ newItems,
     sl1.nextItemId + aggRows.length⟩
  let outItems := sortItems ((sl2.items.filter (fun it => it.shopping_list_id = lid)).map
    (fun it => it.item))
  (sl2, ⟨lid, pid, outItems, totalCost⟩)

/-- `server.ts` 792-807: find the plan's single list row (first match) or
create it; on regeneration, first delete every prior line item of that row. -/
def resolveList (sl : SLState) (pid : Nat) : Nat × SLState :=
  match sl.lists.find? (fun l => l.meal_plan_id = pid) with
  | none =>
    (sl.lists.length + 1,
     { sl with lists := sl.lists ++ [⟨sl.lists.length + 1, pid, 0⟩] })
  | some l =>
    (l.id, { sl with items := sl.items.filter (fun it => it.shopping_list_id ≠ l.id) })

/-- The GET /shopping-list/:plan_id handler (`server.ts` 771-874): ownership
check (404), then either create the plan's single list row or delete all its
prior line items, then regenerate. -/
def getShoppingList (db : DB) (sl : SLState) (uid pid : Nat) :
    Nat × SLState × Option SLOutput :=
  if db.meal_plans.any (fun p => p.id = pid ∧ p.user_id = uid) then
    let resolved := resolveList sl pid
    let done := finishList db pid resolved.1 resolved.2
    (200, done.1, some done.2)
  else (404, sl, none)

/-! ### POST /register (`server.ts` 521-561) and the users table -/

structure UserRow where
  id : Nat
  email : String
  password_hash : String
deriving DecidableEq

/-- JS `\w` (no unicode flag): `[A-Za-z0-9_]`. -/
def isWordChar (c : Char) : Bool :=
  ('a' ≤ c && c ≤ 'z') || ('A' ≤ c && c ≤ 'Z') || ('0' ≤ c && c ≤ '9') || c = '_'

def isLocalChar (c : Char) : Bool := isWordChar c || c = '-' || c = '.'

def isDomChar (c : Char) : Bool := isWordChar c || c = '-'

/-- The test of `/^[\w-.]+@([\w-]+\.)+[\w-]\x7b2,4\x7d$/` on the raw email.
Since neither character class contains `@` or `.` (in the domain labels),
the anchored regex is equivalent to this split-based check. -/
def emailRegexTest (s : String) : Bool :=
  match splitOnCharList '@' s.toList with
  | [loc, domain] =>
    !loc.isEmpty && loc.all isLocalChar &&
    (let labels := splitOnCharList '.' domain
     decide (2 ≤ labels.length) &&
     (labels.dropLast.all (fun l => !l.isEmpty && l.all isDomChar)) &&
     (match labels.getLast? with
      | some lst => lst.all isDomChar && decide (2 ≤ lst.length) && decide (lst.length ≤ 4)
      | none => false))
  | _ => false

/-- The POST /register handler (`server.ts` 521-561): validation, bcrypt
hash (opaque, passed in as `hash`), insert with the schema's UNIQUE email
(pg error 23505 → 409).  The stored email is `email.trim()` — no
lowercasing. -/
def registerUser (hash : String → String) (users : List UserRow)
    (email password : Option String) : Nat × List UserRow :=
  match email with
  | none => (400, users)
  | some e =>
    if jsTrim e = "" then (400, users)
    else if !emailRegexTest e then (400, users)
    else
      match password with
      | none => (400, users)
      | some p =>
        if p.length < 8 then (400, users)
        else
          let stored := jsTrim e
          if users.any (fun u => u.email = stored) then (409, users)
          else (201, users ++ [⟨users.length + 1, stored, hash p⟩])

/-! ### POST /affiliate-link (`server.ts` 876-914) -/

inductive Retailer where
  | tesco
  | sainsburys
deriving DecidableEq

/-- UTF-8 bytes of a unicode scalar value. -/
def utf8Bytes (n : Nat) : List Nat :=
  if n < 128 then [n]
  else if n < 2048 then [192 + n / 64, 128 + n % 64]
  else if n < 65536 then [224 + n / 4096, 128 + (n / 64) % 64, 128 + n % 64]
  else [240 + n / 262144, 128 + (n / 4096) % 64, 128 + (n / 64) % 64, 128 + n % 64]

def hexDigitUpper (n : Nat) : Char :=
  if n < 10 then Char.ofNat (48 + n) else Char.ofNat (55 + n)

def pctEncodeByte (b : Nat) : List Char :=
  ['%', hexDigitUpper (b / 16), hexDigitUpper (b % 16)]

/-- The characters `encodeURIComponent` leaves unescaped:
`A-Z a-z 0-9 - _ . ! ~ * ' ( )`. -/
def isUriUnescaped (c : Char) : Bool :=
  ('a' ≤ c && c ≤ 'z') || ('A' ≤ c && c ≤ 'Z') || ('0' ≤ c && c ≤ '9') ||
  c = '-' || c = '_' || c = '.' || c = '!' || c = '~' || c = '*' || c = '\'' ||
  c = '(' || c = ')'

def encodeURIComponent (s : String) : String :=
  (s.toList.flatMap (fun c =>
    if isUriUnescaped c then [c] else (utf8Bytes c.toNat).flatMap pctEncodeByte)).asString

/-- `buildRetailerSearchUrl` (`server.ts` 879-891); `utmSource` is the
configured `UTM_SOURCE` (default `my-food-sorted`). -/
def buildRetailerSearchUrl (r : Retailer) (utmSource q : String) : String :=
  let encoded := encodeURIComponent (jsTrim q)
  match r with
  | Retailer.tesco =>
    "https://www.tesco.com/groceries/en-GB/search?query=" ++ encoded ++
      "&utm_source=" ++ encodeURIComponent utmSource
  | Retailer.sainsburys =>
    "https://www.sainsburys.co.uk/gol-ui/SearchDisplayView?searchTerm=" ++ encoded ++
      "&utm_source=" ++ encodeURIComponent utmSource

/-- `RETAILERS.includes(retailer.toLowerCase())`, keeping the parsed value. -/
def parseRetailer (s : String) : Option Retailer :=
  if s = "tesco" then some Retailer.tesco
  else if s = "sainsburys" then some Retailer.sainsburys
  else none

/-- The POST /affiliate-link handler (`server.ts` 893-914).  Note the
handler lowercases the retailer before membership and dispatch. -/
def postAffiliateLink (utmSource : String) :
    Option String → Option String → Nat × Option String
  | some r, some q =>
    (match parseRetailer (jsToLower r) with
     | some rt =>
       if jsTrim q = "" then (400, none)
       else (200, some (buildRetailerSearchUrl rt utmSource q))
     | none => (400, none))
  | _, _ => (400, none)

/-! ### POST /chat message storage (`server.ts` 635-659) -/

structure ChatMsgRow where
  id : Nat
  user_id : Nat
  sender : String
  message_text : String
  conversation_id : String
deriving DecidableEq

/-- Append-only `chat_messages` insert; the table orders history by
timestamp, modelled as insertion order.  The column is VARCHAR(100) and the
handler passes `conversation_id.trim().slice(0, 100)`. -/
def insertChatMessage (msgs : List ChatMsgRow) (uid : Nat) (sender text cid : String) :
    List ChatMsgRow :=
  msgs ++ [⟨msgs.length + 1, uid, sender, text, cid⟩]

/-- The history query (`server.ts` 642-647): filters on the UNTRUNCATED
trimmed conversation_id and the user id, in timestamp order. -/
def chatHistory (msgs : List ChatMsgRow) (cid : String) (uid : Nat) : List ChatMsgRow :=
  msgs.filter (fun m => m.conversation_id = cid ∧ m.user_id = uid)

/-- `server.ts` 635-647: store the user turn (truncated conversation id),
then read back the conversation history (untruncated id). -/
def chatStoreAndHistory (msgs : List ChatMsgRow) (uid : Nat)
    (conversation_id user_message : String) : List ChatMsgRow × List ChatMsgRow :=
  let msgs1 := insertChatMessage msgs uid "user" (jsTrim user_message)
    (jsSlice (jsTrim conversation_id) 100)
  (msgs1, chatHistory msgs1 (jsTrim conversation_id) uid)

/-! ### Concrete example data used by the closed theorems -/

def emptyDB : DB := ⟨[], [], []⟩

/-- Two requested recipes; the second relies on every default. -/
def exRecipes : List RecipeReq :=
  [⟨some "Monday", some "dinner", some "Pasta", some "Boil.", some 10, some 20,
    some 5, none, none, none, none,
    some [⟨some "pasta", some 200, some "g", some "Pantry", some 1⟩]⟩,
   ⟨none, none, none, none, none, none, none, none, none, none, none, none⟩]

def exReqTwoRecipes : MealPlanReq := ⟨some "My Week", some 2, some exRecipes⟩

/-- Plan 1 of user 7 with two recipes, each holding an "egg" ingredient with
the quantities and prices of the spec's worked example. -/
def eggDB : DB :=
  { meal_plans := [⟨1, 7, "Week", 0, 2, "draft"⟩]
    recipes :=
      [⟨1, 1, "Monday", "breakfast", "Omelette", "", none, none, 2, none, none, none, none⟩,
       ⟨2, 1, "Tuesday", "lunch", "Fried rice", "", none, none, 3, none, none, none, none⟩]
    ingredients :=
      [⟨1, 1, "egg", some 2, some "pcs", some "Dairy", some 1⟩,
       ⟨2, 2, "egg", some 3, some "pcs", some "Dairy", some (3 / 2)⟩] }

/-!
## Theorems

One main theorem per claim of the specification audit, with helper lemmas
shared between them.
-/

theorem firstIdxOf_eq_none_of_not_mem {c : Char} :
    ∀ {cs : List Char}, c ∉ cs → firstIdxOf c cs = none := by
  intro cs h
  induction cs with
  | nil => rfl
  | cons x xs ih =>
    rw [List.mem_cons, not_or] at h
    have hx : ¬ x = c := fun hxc => h.1 hxc.symm
    simp [firstIdxOf, hx, ih h.2]

/-- Claim C2: for every input text, the Plan Extractor takes the span from
the first brace to the last brace (greedy), attempts to parse that span as
JSON, and returns the parsed value exactly when it is an object whose
`recipes` field is an array; text with no opening brace yields none. -/
theorem claim_C2_plan_extractor (t : String) :
    (∀ v, parseRecipeJSON t = some v → isRecipesArr v = true) ∧
    (∀ s v, braceSpan t = some s → parseJson s = some v → isRecipesArr v = true →
      parseRecipeJSON t = some v) ∧
    ('{' ∉ t.toList → parseRecipeJSON t = none) := by
  refine ⟨?_, ?_, ?_⟩
  · intro v h
    unfold parseRecipeJSON at h
    split at h
    · exact absurd h (by simp)
    · split at h
      · exact absurd h (by simp)
      · split at h
        · next hr => cases h; exact hr
        · exact absurd h (by simp)
  · intro s v hb hp hr
    unfold parseRecipeJSON
    rw [hb]
    show (match parseJson s with
          | none => none
          | some v => if isRecipesArr v then some v else none) = some v
    rw [hp]
    show (if isRecipesArr v then some v else none) = some v
    rw [if_pos hr]
  · intro h
    have h1 : firstIdxOf '{' t.toList = none := firstIdxOf_eq_none_of_not_mem h
    unfold parseRecipeJSON braceSpan
    rw [h1]

/-- Witness for C2: a chat answer embedding a well-formed meal-plan object is
extracted, and brace-free text yields none. -/
theorem claim_C2_plan_extractor_witness :
    parseRecipeJSON "Here is your plan: \x7b\"recipes\": []\x7d Enjoy!" =
      some (Json.obj [("recipes", Json.arr [])]) ∧
    parseRecipeJSON "Sure, I can help with meal planning." = none :=
  ⟨(claim_C2_plan_extractor _).2.1 _ _ rfl rfl rfl,
   (claim_C2_plan_extractor _).2.2 (by decide)⟩

/-- Claim C3 (code bug): POST /meal-plan issues no BEGIN/ROLLBACK, and
node-postgres auto-commits statement by statement, so a failure of the
fourth statement (the second recipe insert) returns 500 yet leaves the plan
row, the first recipe and its ingredient durably committed — the database is
NOT unchanged. -/
theorem claim_C3_partial_commit_on_failure :
    (postMealPlan emptyDB 7 exReqTwoRecipes (some 3)).1 = 500 ∧
    (postMealPlan emptyDB 7 exReqTwoRecipes (some 3)).2 ≠ emptyDB ∧
    (postMealPlan emptyDB 7 exReqTwoRecipes (some 3)).2.meal_plans =
      [⟨1, 7, "My Week", 0, 2, "draft"⟩] ∧
    ((postMealPlan emptyDB 7 exReqTwoRecipes (some 3)).2.recipes.map
        (fun r => r.title)) = ["Pasta"] ∧
    ((postMealPlan emptyDB 7 exReqTwoRecipes (some 3)).2.ingredients.map
        (fun i => i.ingredient_name)) = ["pasta"] := by
  refine ⟨rfl, by decide, rfl, rfl, rfl⟩

/-- Claim C7: POST /meal-plan with an empty recipes array is rejected by
validation with 400 before any statement runs, whatever the rest of the
request and whatever the database would have done. -/
theorem claim_C7_empty_recipes (db : DB) (uid : Nat) (req : MealPlanReq)
    (failAt : Option Nat) (h : req.recipes = some []) :
    postMealPlan db uid req failAt = (400, db) := by
  rcases req with ⟨pn, sv, rc⟩
  cases h
  cases pn <;> cases sv <;> simp [postMealPlan]

theorem claim_C7_empty_recipes_witness :
    postMealPlan emptyDB 7 ⟨some "X", some 1, some []⟩ (some 0) = (400, emptyDB) :=
  claim_C7_empty_recipes emptyDB 7 ⟨some "X", some 1, some []⟩ (some 0) rfl

/-- Counterexample to claim C9 as stated: the code also trims the result
(and performs the span removal in addition to the fence removal), so on
`"Hi\n\n\n\n\x7bjson\x7d"` the served message is `"Hi"` while the claim's
described transform gives `"Hi\n\n"`. -/
theorem claim_C9_counterexample :
    (parseRecipeJSON "Hi\n\n\n\n\x7b\"recipes\":[]\x7d").isSome = true ∧
    chatDisplayMessage "Hi\n\n\n\n\x7b\"recipes\":[]\x7d" = "Hi" ∧
    claimC9Display "Hi\n\n\n\n\x7b\"recipes\":[]\x7d" = "Hi\n\n" ∧
    chatDisplayMessage "Hi\n\n\n\n\x7b\"recipes\":[]\x7d" ≠
      claimC9Display "Hi\n\n\n\n\x7b\"recipes\":[]\x7d" :=
  ⟨rfl, rfl, rfl, by decide⟩

/-- Claim C9 as amended: whenever a meal plan was extracted, the served
message is the assistant text with all fenced json blocks removed, then the
first occurrence of the original greedy brace span removed from that result,
newline runs of three or more collapsed to two, and the result trimmed; the
original full text is served if that leaves the empty string. -/
theorem claim_C9_display_amended (t : String) (h : parseRecipeJSON t ≠ none) :
    chatDisplayMessage t = claimC9DisplayAmended t := by
  unfold chatDisplayMessage
  cases hp : parseRecipeJSON t with
  | none => exact absurd hp h
  | some v => rfl

theorem claim_C9_display_amended_witness :
    chatDisplayMessage "Plan:\n\n```json\n\x7b\"recipes\": []\x7d\n```\nEnjoy" =
      claimC9DisplayAmended "Plan:\n\n```json\n\x7b\"recipes\": []\x7d\n```\nEnjoy" ∧
    chatDisplayMessage "Plan:\n\n```json\n\x7b\"recipes\": []\x7d\n```\nEnjoy" =
      "Plan:\n\nEnjoy" :=
  ⟨claim_C9_display_amended _ (by
      intro hnone
      rw [show parseRecipeJSON "Plan:\n\n```json\n\x7b\"recipes\": []\x7d\n```\nEnjoy" =
            some (Json.obj [("recipes", Json.arr [])]) from rfl] at hnone
      exact Option.noConfusion hnone),
   rfl⟩

/-- Claim C10: the user turn is stored under the trimmed conversation id
truncated to 100 characters while history is queried with the untruncated
trimmed id; for ids of at most 100 characters the truncation is the
identity, so the history read back ends with the just-inserted user message;
a 101-character id concretely loses it. -/
theorem claim_C10_conversation_id_truncation (msgs : List ChatMsgRow) (uid : Nat)
    (cid umsg : String) (h : (jsTrim cid).toList.length ≤ 100) :
    jsSlice (jsTrim cid) 100 = jsTrim cid ∧
    (chatStoreAndHistory msgs uid cid umsg).2 =
      chatHistory msgs (jsTrim cid) uid ++
        [⟨msgs.length + 1, uid, "user", jsTrim umsg, jsSlice (jsTrim cid) 100⟩] ∧
    (chatStoreAndHistory [] 1 (String.mk (List.replicate 101 'a')) "hi").2 = [] := by
  have heq : jsSlice (jsTrim cid) 100 = jsTrim cid := by
    unfold jsSlice
    rw [List.take_of_length_le h, String.asString_toList]
  refine ⟨heq, ?_, by decide⟩
  show List.filter _ (msgs ++ _) = _
  rw [List.filter_append]
  simp [heq, chatHistory]

theorem claim_C10_conversation_id_truncation_witness :
    jsSlice (jsTrim "conv-1") 100 = jsTrim "conv-1" ∧
    (chatStoreAndHistory [] 1 "conv-1" "hello").2 =
      chatHistory [] (jsTrim "conv-1") 1 ++
        [⟨1, 1, "user", jsTrim "hello", jsSlice (jsTrim "conv-1") 100⟩] ∧
    (chatStoreAndHistory [] 1 (String.mk (List.replicate 101 'a')) "hi").2 = [] :=
  claim_C10_conversation_id_truncation [] 1 "conv-1" "hello" (by decide)

/-- Counterexample to claim C6 as stated: the handler stores `email.trim()`
with no lowercasing, so registering `"A@b.co"` (which the validation regex
accepts) stores `"A@b.co"`, not its lower/trim-normalization `"a@b.co"`. -/
theorem claim_C6_counterexample :
    (registerUser id [] (some "A@b.co") (some "password1")).1 = 201 ∧
    ((registerUser id [] (some "A@b.co") (some "password1")).2.map
        (fun u => u.email)) = ["A@b.co"] ∧
    jsToLower (jsTrim "A@b.co") = "a@b.co" ∧ "A@b.co" ≠ "a@b.co" := by
  refine ⟨rfl, rfl, by decide, by decide⟩

/-- Claim C6 as amended: a valid registration stores the email
trim-normalized only (no lowercasing), uniqueness is case-sensitive on the
stored string, and a second registration with the same email yields 409 and
leaves the users table unchanged. -/
theorem claim_C6_email_stored_trimmed (hash : String → String) (users : List UserRow)
    (e p : String) (h0 : jsTrim e ≠ "") (h1 : emailRegexTest e = true)
    (h2 : 8 ≤ p.length) (h3 : ∀ u ∈ users, u.email ≠ jsTrim e) :
    registerUser hash users (some e) (some p) =
      (201, users ++ [⟨users.length + 1, jsTrim e, hash p⟩]) ∧
    registerUser hash (users ++ [⟨users.length + 1, jsTrim e, hash p⟩]) (some e) (some p) =
      (409, users ++ [⟨users.length + 1, jsTrim e, hash p⟩]) := by
  have hlen : ¬ p.length < 8 := Nat.not_lt.mpr h2
  have hany : users.any (fun u => u.email = jsTrim e) = false := by
    rw [List.any_eq_false]
    intro u hu
    simpa using h3 u hu
  constructor
  · simp [registerUser, h0, h1, hlen, hany]
  · have hany2 : (users ++ [UserRow.mk (users.length + 1) (jsTrim e) (hash p)]).any
        (fun u => u.email = jsTrim e) = true := by
      rw [List.any_append]
      simp
    simp [registerUser, h0, h1, hlen, hany2]

theorem claim_C6_email_stored_trimmed_witness :
    registerUser id [] (some "a@b.co") (some "password1") =
      (201, [UserRow.mk 1 (jsTrim "a@b.co") "password1"]) ∧
    registerUser id [UserRow.mk 1 (jsTrim "a@b.co") "password1"] (some "a@b.co")
        (some "password1") =
      (409, [UserRow.mk 1 (jsTrim "a@b.co") "password1"]) :=
  claim_C6_email_stored_trimmed id [] "a@b.co" "password1" (by decide) (by decide)
    (by decide) (by intro u hu; cases hu)

/-- Counterexample to claim C8 as stated: the handler lowercases the
retailer before the membership test, so the value `"Tesco"` — which is
neither `"tesco"` nor `"sainsburys"` — is accepted with 200 rather than
rejected with 400. -/
theorem claim_C8_counterexample :
    ¬ ("Tesco" = "tesco" ∨ "Tesco" = "sainsburys") ∧
    (postAffiliateLink "my-food-sorted" (some "Tesco") (some "milk")).1 = 200 := by
  refine ⟨by decide, rfl⟩

/-- Claim C8 as amended: the retailer link builder is a pure mapping and the
route matches the retailer case-insensitively: when the lowercased retailer
is tesco or sainsburys and the query is non-blank, the response is 200 with
the URL-encoded search URL carrying the configurable utm_source tracking
parameter; when the lowercased retailer is neither, the response is 400. -/
theorem claim_C8_retailer_link (utm r q : String) :
    (parseRetailer (jsToLower r) = none →
      postAffiliateLink utm (some r) (some q) = (400, none)) ∧
    (∀ rt, parseRetailer (jsToLower r) = some rt → jsTrim q ≠ "" →
      postAffiliateLink utm (some r) (some q) = (200, some (buildRetailerSearchUrl rt utm q))) ∧
    (∀ rt, ∃ pre, buildRetailerSearchUrl rt utm q =
      pre ++ "&utm_source=" ++ encodeURIComponent utm) := by
  refine ⟨?_, ?_, ?_⟩
  · intro h
    show (match parseRetailer (jsToLower r) with
          | some rt =>
            if jsTrim q = "" then ((400 : Nat), (none : Option String))
            else (200, some (buildRetailerSearchUrl rt utm q))
          | none => (400, none)) = (400, none)
    rw [h]
  · intro rt h hq
    show (match parseRetailer (jsToLower r) with
          | some rt =>
            if jsTrim q = "" then ((400 : Nat), (none : Option String))
            else (200, some (buildRetailerSearchUrl rt utm q))
          | none => (400, none)) = _
    rw [h]
    show (if jsTrim q = "" then ((400 : Nat), (none : Option String))
          else (200, some (buildRetailerSearchUrl rt utm q))) = _
    rw [if_neg hq]
  · intro rt
    cases rt
    · exact ⟨_, rfl⟩
    · exact ⟨_, rfl⟩

theorem claim_C8_retailer_link_witness :
    postAffiliateLink "my-food-sorted" (some "tesco") (some "free range eggs") =
      (200, some "https://www.tesco.com/groceries/en-GB/search?query=free%20range%20eggs&utm_source=my-food-sorted") ∧
    postAffiliateLink "my-food-sorted" (some "asda") (some "milk") = (400, none) := by
  constructor
  · rw [(claim_C8_retailer_link "my-food-sorted" "tesco" "free range eggs").2.1
      Retailer.tesco rfl (by decide)]
    rfl
  · exact (claim_C8_retailer_link "my-food-sorted" "asda" "milk").1 rfl

/-- Exactly one consolidated item per group key: `dedupFirst` keeps the
first occurrence of every key. -/
theorem mem_dedupFirst {α : Type} [DecidableEq α] {k : α} :
    ∀ {ks : List α}, k ∈ dedupFirst ks ↔ k ∈ ks := by
  intro ks
  induction ks with
  | nil => simp [dedupFirst]
  | cons a as ih =>
    by_cases hk : k = a
    · subst hk; simp [dedupFirst]
    · simp [dedupFirst, List.mem_filter, ih, hk]

theorem nodup_dedupFirst {α : Type} [DecidableEq α] :
    ∀ (ks : List α), (dedupFirst ks).Nodup
  | [] => List.nodup_nil
  | a :: as => by
    rw [dedupFirst, List.nodup_cons]
    constructor
    · intro hmem
      have := (List.mem_filter.mp hmem).2
      simp at this
    · exact (nodup_dedupFirst as).filter _

theorem filter_eq_singleton_of_nodup {α : Type} [DecidableEq α] {l : List α} {k : α}
    (hn : l.Nodup) (hm : k ∈ l) : l.filter (fun x => x = k) = [k] := by
  induction l with
  | nil => cases hm
  | cons a as ih =>
    rw [List.nodup_cons] at hn
    rcases List.mem_cons.mp hm with h | h
    · subst h
      have hnil : as.filter (fun x => x = k) = [] := by
        rw [List.filter_eq_nil_iff]
        intro x hx
        simp only [decide_eq_true_eq]
        intro hxk
        exact hn.1 (hxk ▸ hx)
      simp [List.filter_cons, hnil]
    · have hka : ¬ (a = k) := fun he => hn.1 (he ▸ h)
      rw [List.filter_cons, if_neg (by simpa using hka)]
      exact ih hn.2 h

theorem itemKey_aggRowFor (ings : List IngredientRow) (k : AggKey) :
    itemKey (aggRowFor ings k) = k := by
  rcases k with ⟨n, u, c⟩
  by_cases h : u = "" <;> simp [aggRowFor, itemKey, h]

/-- Claim C1: the shopping-list aggregation groups the plan's ingredients
across all its recipes by (name, unit with empty string for null, category),
sums quantity and price per group (SQL SUM over the group's non-null
values), and emits exactly one consolidated item per group with
`checked = false`; every ingredient of the plan belongs to some group. -/
theorem claim_C1_shopping_aggregation (db : DB) (pid : Nat) (k : AggKey)
    (h : k ∈ groupKeys (planIngredients db pid)) :
    (aggregateItems (planIngredients db pid)).filter (fun it => itemKey it = k) =
      [{ ingredient_name := k.name
         quantity := sqlSumQ (((planIngredients db pid).filter
             (fun i => ingKey i = k)).map (fun i => i.quantity))
         unit := if k.unit = "" then none else some k.unit
         category := k.category
         estimated_price := sqlSumQ (((planIngredients db pid).filter
             (fun i => ingKey i = k)).map (fun i => i.estimated_price))
         checked := false }] ∧
    (∀ i ∈ planIngredients db pid, ingKey i ∈ groupKeys (planIngredients db pid)) := by
  constructor
  · show (((dedupFirst ((planIngredients db pid).map ingKey)).map
        (aggRowFor (planIngredients db pid))).filter (fun it => itemKey it = k)) = _
    rw [List.filter_map]
    have hcong : (dedupFirst ((planIngredients db pid).map ingKey)).filter
        ((fun it => decide (itemKey it = k)) ∘ aggRowFor (planIngredients db pid)) =
        (dedupFirst ((planIngredients db pid).map ingKey)).filter (fun x => x = k) := by
      apply List.filter_congr
      intro x hx
      simp [Function.comp, itemKey_aggRowFor]
    have h' : k ∈ dedupFirst ((planIngredients db pid).map ingKey) := h
    rw [hcong, filter_eq_singleton_of_nodup (nodup_dedupFirst _) h']
    rfl
  · intro i hi
    rw [groupKeys, mem_dedupFirst]
    exact List.mem_map_of_mem ingKey hi

/-- Witness for C1, the spec's worked example: two recipes of one plan each
holding an "egg" (pcs, Dairy) ingredient with quantities 2 and 3 and prices
1.00 and 1.50; the aggregate is exactly one egg item with quantity 5, price
2.50 and `checked = false`. -/
theorem claim_C1_shopping_aggregation_witness :
    aggregateItems (planIngredients eggDB 1) =
      [{ ingredient_name := "egg", quantity := some 5, unit := some "pcs",
         category := some "Dairy", estimated_price := some (5 / 2), checked := false }] ∧
    (aggregateItems (planIngredients eggDB 1)).filter
        (fun it => itemKey it = ⟨"egg", "pcs", some "Dairy"⟩) =
      [{ ingredient_name := "egg", quantity := some 5, unit := some "pcs",
         category := some "Dairy", estimated_price := some (5 / 2), checked := false }] := by
  constructor
  · simp [aggregateItems, groupKeys, dedupFirst, planIngredients, eggDB, ingKey, aggRowFor,
      sqlSumQ]
    norm_num
  · rw [(claim_C1_shopping_aggregation eggDB 1 ⟨"egg", "pcs", some "Dairy"⟩ (by decide)).1]
    simp [planIngredients, eggDB, ingKey, sqlSumQ]
    norm_num

/-- With no failure injected, a statement simply applies its effect. -/
theorem execStmt_none (st : ExecSt) (f : DB → DB) (hf : st.failed = false) :
    execStmt none st f = ⟨f st.db, st.stmtIdx + 1, false⟩ := by
  unfold execStmt
  rw [hf]
  simp

/-- The ingredient-insert loop touches only the ingredients table. -/
theorem ingFold_none (rid : Nat) (gs : List IngReq) :
    ∀ st : ExecSt, st.failed = false →
      (gs.foldl (fun st2 g =>
          execStmt none st2
            (insertIngredientRow (coerceIngRow rid (st2.db.ingredients.length + 1) g))) st).failed
          = false ∧
      (gs.foldl (fun st2 g =>
          execStmt none st2
            (insertIngredientRow (coerceIngRow rid (st2.db.ingredients.length + 1) g))) st).db.meal_plans
          = st.db.meal_plans ∧
      (gs.foldl (fun st2 g =>
          execStmt none st2
            (insertIngredientRow (coerceIngRow rid (st2.db.ingredients.length + 1) g))) st).db.recipes
          = st.db.recipes := by
  induction gs with
  | nil => exact fun st hf => ⟨hf, rfl, rfl⟩
  | cons g gs ih =>
    intro st hf
    rw [List.foldl_cons, execStmt_none st _ hf]
    obtain ⟨ha, hb, hc⟩ := ih
      ⟨insertIngredientRow (coerceIngRow rid (st.db.ingredients.length + 1) g) st.db,
       st.stmtIdx + 1, false⟩ rfl
    exact ⟨ha, by rw [hb]; rfl, by rw [hc]; rfl⟩

/-- One recipe iteration appends exactly the coerced recipe row (plus
ingredient rows). -/
theorem recipeStep_none (pid : Nat) (st : ExecSt) (r : RecipeReq) (hf : st.failed = false) :
    (recipeStep none pid st r).failed = false ∧
    (recipeStep none pid st r).db.meal_plans = st.db.meal_plans ∧
    (recipeStep none pid st r).db.recipes =
      st.db.recipes ++ [coerceRecipeRow pid (st.db.recipes.length + 1) r] := by
  have hred : recipeStep none pid st r =
      (r.ingredients.getD []).foldl (fun st2 g =>
        execStmt none st2
          (insertIngredientRow
            (coerceIngRow (st.db.recipes.length + 1) (st2.db.ingredients.length + 1) g)))
        (execStmt none st
          (insertRecipeRow (coerceRecipeRow pid (st.db.recipes.length + 1) r))) := rfl
  rw [hred, execStmt_none st _ hf]
  obtain ⟨ha, hb, hc⟩ := ingFold_none (st.db.recipes.length + 1) (r.ingredients.getD [])
    ⟨insertRecipeRow (coerceRecipeRow pid (st.db.recipes.length + 1) r) st.db,
     st.stmtIdx + 1, false⟩ rfl
  exact ⟨ha, by rw [hb]; rfl, by rw [hc]; rfl⟩

/-- The recipe loop appends rows whose stored costs are exactly the coerced
per-request costs and which all belong to the new plan. -/
theorem recipeFold_none (pid : Nat) (rs : List RecipeReq) :
    ∀ st : ExecSt, st.failed = false →
      ∃ newRs : List RecipeRow,
        (rs.foldl (recipeStep none pid) st).failed = false ∧
        (rs.foldl (recipeStep none pid) st).db.meal_plans = st.db.meal_plans ∧
        (rs.foldl (recipeStep none pid) st).db.recipes = st.db.recipes ++ newRs ∧
        newRs.map (fun rr => rr.estimated_cost) = rs.map (fun r => r.estimated_cost.getD 0) ∧
        (∀ rr ∈ newRs, rr.meal_plan_id = pid) := by
  induction rs with
  | nil =>
    intro st hf
    exact ⟨[], hf, rfl, by simp, by simp, fun rr h => absurd h (List.not_mem_nil rr)⟩
  | cons r rs ih =>
    intro st hf
    rw [List.foldl_cons]
    obtain ⟨hs1, hs2, hs3⟩ := recipeStep_none pid st r hf
    obtain ⟨newRs, h1, h2, h3, h4, h5⟩ := ih _ hs1
    refine ⟨coerceRecipeRow pid (st.db.recipes.length + 1) r :: newRs, h1, ?_, ?_, ?_, ?_⟩
    · rw [h2, hs2]
    · rw [h3, hs3, List.append_assoc]
      rfl
    · simp only [List.map_cons, h4]
      rfl
    · intro rr hrr
      rcases List.mem_cons.mp hrr with h | h
      · subst h; rfl
      · exact h5 rr h


/-- Claim C4: on the success path the plan row is inserted with placeholder
cost 0 and finally updated so that the stored total_estimated_cost equals
the sum of the coerced per-recipe costs (absent/non-numeric cost → 0),
which equals the sum of the stored child recipes' costs. -/
theorem claim_C4_total_cost (db : DB) (uid : Nat) (n : String) (s : Int)
    (rs : List RecipeReq) (h1 : jsTrim n ≠ "") (h2 : 1 ≤ s) (h3 : rs.length ≠ 0)
    (hfreshp : ∀ p ∈ db.meal_plans, p.id ≠ db.meal_plans.length + 1)
    (hfreshr : ∀ rc ∈ db.recipes, rc.meal_plan_id ≠ db.meal_plans.length + 1) :
    (postMealPlan db uid ⟨some n, some s, some rs⟩ none).1 = 201 ∧
    (((postMealPlan db uid ⟨some n, some s, some rs⟩ none).2.meal_plans.filter
        (fun p => p.id = db.meal_plans.length + 1)).map
      (fun p => p.total_estimated_cost)) = [reqTotalCost rs] ∧
    reqTotalCost rs = (rs.map (fun r => r.estimated_cost.getD 0)).sum ∧
    reqTotalCost rs =
      (((postMealPlan db uid ⟨some n, some s, some rs⟩ none).2.recipes.filter
          (fun rc => rc.meal_plan_id = db.meal_plans.length + 1)).map
        (fun rc => rc.estimated_cost)).sum := by
  obtain ⟨newRs, hfail, hmp, hrec, hcost, hpids⟩ :=
    recipeFold_none (db.meal_plans.length + 1) rs
      ⟨insertPlanRow ⟨db.meal_plans.length + 1, uid, jsTrim n, 0, s, "draft"⟩ db, 1, false⟩ rfl
  obtain ⟨F, hF⟩ : ∃ F : ExecSt,
      rs.foldl (recipeStep none (db.meal_plans.length + 1))
        ⟨insertPlanRow ⟨db.meal_plans.length + 1, uid, jsTrim n, 0, s, "draft"⟩ db,
         1, false⟩ = F :=
    ⟨_, rfl⟩
  rw [hF] at hfail hmp hrec
  have hmp2 : F.db.meal_plans =
      db.meal_plans ++ [⟨db.meal_plans.length + 1, uid, jsTrim n, 0, s, "draft"⟩] := by
    rw [hmp]; rfl
  have hrec2 : F.db.recipes = db.recipes ++ newRs := by
    rw [hrec]; rfl
  have hrun : runMealPlanInserts db uid n s rs none =
      ⟨updatePlanCost (db.meal_plans.length + 1) (reqTotalCost rs) F.db,
       F.stmtIdx + 1, false⟩ := by
    show execStmt none
        (rs.foldl (recipeStep none (db.meal_plans.length + 1))
          (execStmt none ⟨db, 0, false⟩
            (insertPlanRow ⟨db.meal_plans.length + 1, uid, jsTrim n, 0, s, "draft"⟩)))
        (updatePlanCost (db.meal_plans.length + 1) (reqTotalCost rs)) = _
    rw [execStmt_none ⟨db, 0, false⟩ _ rfl, hF, execStmt_none _ _ hfail]
  have hpost : postMealPlan db uid ⟨some n, some s, some rs⟩ none =
      (201, updatePlanCost (db.meal_plans.length + 1) (reqTotalCost rs) F.db) := by
    show (if jsTrim n ≠ "" ∧ 1 ≤ s ∧ rs.length ≠ 0 then
            (if (runMealPlanInserts db uid n s rs none).failed then
              ((500 : Nat), (runMealPlanInserts db uid n s rs none).db)
             else (201, (runMealPlanInserts db uid n s rs none).db))
          else (400, db)) = _
    rw [if_pos ⟨h1, h2, h3⟩, hrun]
    rfl
  have hsnd : (postMealPlan db uid ⟨some n, some s, some rs⟩ none).2 =
      updatePlanCost (db.meal_plans.length + 1) (reqTotalCost rs) F.db := by
    rw [hpost]
  refine ⟨by rw [hpost], ?_, rfl, ?_⟩
  · rw [hsnd]
    have hum : (updatePlanCost (db.meal_plans.length + 1) (reqTotalCost rs) F.db).meal_plans =
        F.db.meal_plans.map (fun p =>
          if p.id = db.meal_plans.length + 1 then
            { p with total_estimated_cost := reqTotalCost rs }
          else p) := rfl
    rw [hum, hmp2, List.filter_map]
    have hfc : (db.meal_plans ++
          [MealPlanRow.mk (db.meal_plans.length + 1) uid (jsTrim n) 0 s "draft"]).filter
        ((fun p : MealPlanRow => decide (p.id = db.meal_plans.length + 1)) ∘
          (fun p : MealPlanRow => if p.id = db.meal_plans.length + 1 then
            { p with total_estimated_cost := reqTotalCost rs } else p)) =
        (db.meal_plans ++
          [MealPlanRow.mk (db.meal_plans.length + 1) uid (jsTrim n) 0 s "draft"]).filter
        (fun p : MealPlanRow => decide (p.id = db.meal_plans.length + 1)) := by
      apply List.filter_congr
      intro x _
      show decide ((if x.id = db.meal_plans.length + 1 then
        { x with total_estimated_cost := reqTotalCost rs } else x).id =
          db.meal_plans.length + 1) = _
      by_cases hx : x.id = db.meal_plans.length + 1
      · rw [if_pos hx]
      · rw [if_neg hx]
    rw [hfc, List.filter_append]
    have hnil : db.meal_plans.filter
        (fun p => decide (p.id = db.meal_plans.length + 1)) = [] := by
      rw [List.filter_eq_nil_iff]
      intro p hp
      simpa using hfreshp p hp
    rw [hnil]
    simp
  · rw [hsnd]
    have hur : (updatePlanCost (db.meal_plans.length + 1) (reqTotalCost rs) F.db).recipes =
        F.db.recipes := rfl
    rw [hur, hrec2, List.filter_append]
    have hnil : db.recipes.filter
        (fun rc => decide (rc.meal_plan_id = db.meal_plans.length + 1)) = [] := by
      rw [List.filter_eq_nil_iff]
      intro rc hrc
      simpa using hfreshr rc hrc
    have hself : newRs.filter
        (fun rc => decide (rc.meal_plan_id = db.meal_plans.length + 1)) = newRs := by
      rw [List.filter_eq_self]
      intro rr hrr
      simpa using hpids rr hrr
    rw [hnil, hself, List.nil_append, hcost]
    rfl

/-- Witness for C4 at a concrete two-recipe request: status 201, stored plan
cost = request cost sum = stored child cost sum = 5. -/
theorem claim_C4_total_cost_witness :
    ((postMealPlan emptyDB 7 ⟨some "My Week", some 2, some exRecipes⟩ none).1 = 201 ∧
     (((postMealPlan emptyDB 7 ⟨some "My Week", some 2, some exRecipes⟩ none).2.meal_plans.filter
         (fun p => p.id = emptyDB.meal_plans.length + 1)).map
       (fun p => p.total_estimated_cost)) = [reqTotalCost exRecipes] ∧
     reqTotalCost exRecipes = (exRecipes.map (fun r => r.estimated_cost.getD 0)).sum ∧
     reqTotalCost exRecipes =
       (((postMealPlan emptyDB 7 ⟨some "My Week", some 2, some exRecipes⟩ none).2.recipes.filter
           (fun rc => rc.meal_plan_id = emptyDB.meal_plans.length + 1)).map
         (fun rc => rc.estimated_cost)).sum) ∧
    reqTotalCost exRecipes = 5 :=
  ⟨claim_C4_total_cost emptyDB 7 "My Week" 2 exRecipes (by decide) (by decide) (by decide)
      (fun p hp => absurd hp (List.not_mem_nil p))
      (fun rc hrc => absurd hrc (List.not_mem_nil rc)),
   by simp [reqTotalCost, exRecipes]⟩

theorem withIds_map_item (lid : Nat) :
    ∀ (base : Nat) (l : List ShoppingItemRow),
      (withIds base lid l).map (fun x => x.item) = l := by
  intro base l
  induction l generalizing base with
  | nil => rfl
  | cons x xs ih => simp [withIds, ih]

theorem withIds_sl_id (lid : Nat) :
    ∀ (base : Nat) (l : List ShoppingItemRow),
      ∀ x ∈ withIds base lid l, x.shopping_list_id = lid := by
  intro base l
  induction l generalizing base with
  | nil => intro x hx; cases hx
  | cons y ys ih =>
    intro x hx
    rcases List.mem_cons.mp hx with h | h
    · subst h; rfl
    · exact ih (base + 1) x h

/-- When no prior item references the resolved list id, regeneration stores
exactly the fresh aggregation as the list's items, updates the list's total,
and returns the aggregated items sorted by (category NULLS LAST, name). -/
theorem finishList_spec (db : DB) (pid lid : Nat) (sl1 : SLState)
    (hno : ∀ it ∈ sl1.items, it.shopping_list_id ≠ lid) :
    (finishList db pid lid sl1).1.lists = sl1.lists.map (fun l =>
      if l.id = lid then
        { l with total_cost := slTotalCost (aggregateItems (planIngredients db pid)) }
      else l) ∧
    ((finishList db pid lid sl1).1.items.filter
        (fun it => it.shopping_list_id = lid)).map (fun it => it.item) =
      aggregateItems (planIngredients db pid) ∧
    (finishList db pid lid sl1).2 =
      ⟨lid, pid, sortItems (aggregateItems (planIngredients db pid)),
       slTotalCost (aggregateItems (planIngredients db pid))⟩ := by
  have hfilter : (sl1.items ++
      withIds sl1.nextItemId lid (aggregateItems (planIngredients db pid))).filter
        (fun it => it.shopping_list_id = lid) =
      withIds sl1.nextItemId lid (aggregateItems (planIngredients db pid)) := by
    rw [List.filter_append]
    have h1 : sl1.items.filter (fun it => decide (it.shopping_list_id = lid)) = [] := by
      rw [List.filter_eq_nil_iff]
      intro it hit
      simpa using hno it hit
    have h2 : (withIds sl1.nextItemId lid (aggregateItems (planIngredients db pid))).filter
        (fun it => decide (it.shopping_list_id = lid)) =
        withIds sl1.nextItemId lid (aggregateItems (planIngredients db pid)) := by
      rw [List.filter_eq_self]
      intro x hx
      simpa using withIds_sl_id lid sl1.nextItemId _ x hx
    rw [h1, h2, List.nil_append]
  refine ⟨rfl, ?_, ?_⟩
  · show ((sl1.items ++
      withIds sl1.nextItemId lid (aggregateItems (planIngredients db pid))).filter
        (fun it => it.shopping_list_id = lid)).map (fun it => it.item) = _
    rw [hfilter, withIds_map_item]
  · show SLOutput.mk lid pid
      (sortItems (((sl1.items ++
        withIds sl1.nextItemId lid (aggregateItems (planIngredients db pid))).filter
          (fun it => it.shopping_list_id = lid)).map (fun it => it.item)))
      (slTotalCost (aggregateItems (planIngredients db pid))) = _
    rw [hfilter, withIds_map_item]

/-- The handler on an owned plan. -/
theorem getShoppingList_pos (db : DB) (sl : SLState) (uid pid : Nat)
    (hOwn : (db.meal_plans.any (fun p => p.id = pid ∧ p.user_id = uid)) = true) :
    getShoppingList db sl uid pid =
      (200, (finishList db pid (resolveList sl pid).1 (resolveList sl pid).2).1,
       some (finishList db pid (resolveList sl pid).1 (resolveList sl pid).2).2) := by
  show (if (db.meal_plans.any (fun p => p.id = pid ∧ p.user_id = uid)) = true then
          ((200 : Nat), (finishList db pid (resolveList sl pid).1 (resolveList sl pid).2).1,
           some (finishList db pid (resolveList sl pid).1 (resolveList sl pid).2).2)
        else (404, sl, none)) = _
  rw [if_pos hOwn]

/-- The total-cost update does not change which list row is found. -/
theorem find?_lists_update (T : ℚ) (lid pid : Nat) (L : List ShoppingListRow) :
    (L.map (fun l => if l.id = lid then { l with total_cost := T } else l)).find?
        (fun l => l.meal_plan_id = pid) =
      (L.find? (fun l => l.meal_plan_id = pid)).map
        (fun l => if l.id = lid then { l with total_cost := T } else l) := by
  rw [List.find?_map]
  have hp : ((fun l : ShoppingListRow => decide (l.meal_plan_id = pid)) ∘
      (fun l => if l.id = lid then { l with total_cost := T } else l)) =
      (fun l : ShoppingListRow => decide (l.meal_plan_id = pid)) := by
    funext x
    show decide ((if x.id = lid then { x with total_cost := T } else x).meal_plan_id = pid) = _
    by_cases h : x.id = lid
    · rw [if_pos h]
    · rw [if_neg h]
  rw [hp]


/-- Claim C5: with the plan owned and (on first access) no stray item under
the about-to-be-created list id, regenerating twice with unchanged underlying
data returns 200 both times with identical output (same list id, items,
ordering and total), and each run full-replaces the list's line items with
exactly the fresh aggregation — prior items are deleted, not merged. -/
theorem claim_C5_idempotent_regeneration (db : DB) (sl : SLState) (uid pid : Nat)
    (hOwn : (db.meal_plans.any (fun p => p.id = pid ∧ p.user_id = uid)) = true)
    (hFresh : sl.lists.find? (fun l => l.meal_plan_id = pid) = none →
      ∀ it ∈ sl.items, it.shopping_list_id ≠ sl.lists.length + 1) :
    (getShoppingList db sl uid pid).1 = 200 ∧
    (getShoppingList db (getShoppingList db sl uid pid).2.1 uid pid).1 = 200 ∧
    (getShoppingList db (getShoppingList db sl uid pid).2.1 uid pid).2.2 =
      (getShoppingList db sl uid pid).2.2 ∧
    (∃ out : SLOutput, (getShoppingList db sl uid pid).2.2 = some out ∧
      out.items = sortItems (aggregateItems (planIngredients db pid)) ∧
      out.total_cost = slTotalCost (aggregateItems (planIngredients db pid)) ∧
      (((getShoppingList db sl uid pid).2.1.items.filter
          (fun it => it.shopping_list_id = out.shopping_list_id)).map
        (fun it => it.item)) = aggregateItems (planIngredients db pid)) := by
  have hrun1 := getShoppingList_pos db sl uid pid hOwn
  have h200 : (getShoppingList db sl uid pid).1 = 200 := by rw [hrun1]
  have hst1 : (getShoppingList db sl uid pid).2.1 =
      (finishList db pid (resolveList sl pid).1 (resolveList sl pid).2).1 := by rw [hrun1]
  have hout1 : (getShoppingList db sl uid pid).2.2 =
      some (finishList db pid (resolveList sl pid).1 (resolveList sl pid).2).2 := by
    rw [hrun1]
  cases hf : sl.lists.find? (fun l => l.meal_plan_id = pid) with
  | none =>
    have hres1 : (resolveList sl pid).1 = sl.lists.length + 1 := by
      unfold resolveList
      rw [hf]
    have hres2 : (resolveList sl pid).2 =
        { sl with lists := sl.lists ++ [⟨sl.lists.length + 1, pid, 0⟩] } := by
      unfold resolveList
      rw [hf]
    rw [hres1, hres2] at hst1 hout1
    obtain ⟨hl1, hi1, ho1⟩ := finishList_spec db pid (sl.lists.length + 1)
      { sl with lists := sl.lists ++ [⟨sl.lists.length + 1, pid, 0⟩] } (hFresh hf)
    have hl1' : (finishList db pid (sl.lists.length + 1)
        { sl with lists := sl.lists ++ [⟨sl.lists.length + 1, pid, 0⟩] }).1.lists =
        (sl.lists ++ [ShoppingListRow.mk (sl.lists.length + 1) pid 0]).map
          (fun l : ShoppingListRow =>
            if l.id = sl.lists.length + 1 then
              { l with total_cost := slTotalCost (aggregateItems (planIngredients db pid)) }
            else l) := hl1
    have hfind2 : (finishList db pid (sl.lists.length + 1)
        { sl with lists := sl.lists ++ [⟨sl.lists.length + 1, pid, 0⟩] }).1.lists.find?
          (fun l => l.meal_plan_id = pid) =
        some ⟨sl.lists.length + 1, pid,
          slTotalCost (aggregateItems (planIngredients db pid))⟩ := by
      rw [hl1', find?_lists_update, List.find?_append, hf, Option.none_or,
        List.find?_cons_of_pos _ (by simp), Option.map_some']
      rw [if_pos rfl]
    have hres' : resolveList (finishList db pid (sl.lists.length + 1)
        { sl with lists := sl.lists ++ [⟨sl.lists.length + 1, pid, 0⟩] }).1 pid =
        (sl.lists.length + 1,
         { (finishList db pid (sl.lists.length + 1)
             { sl with lists := sl.lists ++ [⟨sl.lists.length + 1, pid, 0⟩] }).1 with
           items := (finishList db pid (sl.lists.length + 1)
             { sl with lists := sl.lists ++ [⟨sl.lists.length + 1, pid, 0⟩] }).1.items.filter
             (fun it => it.shopping_list_id ≠ sl.lists.length + 1) }) := by
      unfold resolveList
      rw [hfind2]
    have hno2 : ∀ it ∈ (finishList db pid (sl.lists.length + 1)
        { sl with lists := sl.lists ++ [⟨sl.lists.length + 1, pid, 0⟩] }).1.items.filter
          (fun it => it.shopping_list_id ≠ sl.lists.length + 1),
        it.shopping_list_id ≠ sl.lists.length + 1 := by
      intro it hit
      simpa using (List.mem_filter.mp hit).2
    obtain ⟨hl2, hi2, ho2⟩ := finishList_spec db pid (sl.lists.length + 1)
      { (finishList db pid (sl.lists.length + 1)
          { sl with lists := sl.lists ++ [⟨sl.lists.length + 1, pid, 0⟩] }).1 with
        items := (finishList db pid (sl.lists.length + 1)
          { sl with lists := sl.lists ++ [⟨sl.lists.length + 1, pid, 0⟩] }).1.items.filter
          (fun it => it.shopping_list_id ≠ sl.lists.length + 1) } hno2
    have hrun2 := getShoppingList_pos db (finishList db pid (sl.lists.length + 1)
      { sl with lists := sl.lists ++ [⟨sl.lists.length + 1, pid, 0⟩] }).1 uid pid hOwn
    refine ⟨h200, ?_, ?_, ?_⟩
    · rw [hst1, hrun2]
    · rw [hst1, hrun2, hout1]
      show some (finishList db pid
          (resolveList (finishList db pid (sl.lists.length + 1)
            { sl with lists := sl.lists ++ [⟨sl.lists.length + 1, pid, 0⟩] }).1 pid).1
          (resolveList (finishList db pid (sl.lists.length + 1)
            { sl with lists := sl.lists ++ [⟨sl.lists.length + 1, pid, 0⟩] }).1 pid).2).2 = _
      rw [hres']
      show some (finishList db pid (sl.lists.length + 1)
        { (finishList db pid (sl.lists.length + 1)
            { sl with lists := sl.lists ++ [⟨sl.lists.length + 1, pid, 0⟩] }).1 with
          items := (finishList db pid (sl.lists.length + 1)
            { sl with lists := sl.lists ++ [⟨sl.lists.length + 1, pid, 0⟩] }).1.items.filter
            (fun it => it.shopping_list_id ≠ sl.lists.length + 1) }).2 = _
      rw [ho2, ho1]
    · refine ⟨⟨sl.lists.length + 1, pid,
        sortItems (aggregateItems (planIngredients db pid)),
        slTotalCost (aggregateItems (planIngredients db pid))⟩, ?_, rfl, rfl, ?_⟩
      · rw [hout1, ho1]
      · rw [hst1]
        exact hi1
  | some l =>
    have hres1 : (resolveList sl pid).1 = l.id := by
      unfold resolveList
      rw [hf]
    have hres2 : (resolveList sl pid).2 =
        { sl with items := sl.items.filter (fun it => it.shopping_list_id ≠ l.id) } := by
      unfold resolveList
      rw [hf]
    rw [hres1, hres2] at hst1 hout1
    have hno1 : ∀ it ∈ sl.items.filter (fun it => it.shopping_list_id ≠ l.id),
        it.shopping_list_id ≠ l.id := by
      intro it hit
      simpa using (List.mem_filter.mp hit).2
    obtain ⟨hl1, hi1, ho1⟩ := finishList_spec db pid l.id
      { sl with items := sl.items.filter (fun it => it.shopping_list_id ≠ l.id) } hno1
    have hl1' : (finishList db pid l.id
        { sl with items := sl.items.filter (fun it => it.shopping_list_id ≠ l.id) }).1.lists =
        sl.lists.map (fun x =>
          if x.id = l.id then
            { x with total_cost := slTotalCost (aggregateItems (planIngredients db pid)) }
          else x) := hl1
    have hfind2 : (finishList db pid l.id
        { sl with items := sl.items.filter (fun it => it.shopping_list_id ≠ l.id) }).1.lists.find?
          (fun x => x.meal_plan_id = pid) =
        some { l with total_cost := slTotalCost (aggregateItems (planIngredients db pid)) } := by
      rw [hl1', find?_lists_update, hf, Option.map_some']
      rw [if_pos rfl]
    have hres' : resolveList (finishList db pid l.id
        { sl with items := sl.items.filter (fun it => it.shopping_list_id ≠ l.id) }).1 pid =
        (l.id,
         { (finishList db pid l.id
             { sl with items := sl.items.filter (fun it => it.shopping_list_id ≠ l.id) }).1 with
           items := (finishList db pid l.id
             { sl with items := sl.items.filter (fun it => it.shopping_list_id ≠ l.id) }).1.items.filter
             (fun it => it.shopping_list_id ≠ l.id) }) := by
      unfold resolveList
      rw [hfind2]
    have hno2 : ∀ it ∈ (finishList db pid l.id
        { sl with items := sl.items.filter (fun it => it.shopping_list_id ≠ l.id) }).1.items.filter
          (fun it => it.shopping_list_id ≠ l.id),
        it.shopping_list_id ≠ l.id := by
      intro it hit
      simpa using (List.mem_filter.mp hit).2
    obtain ⟨hl2, hi2, ho2⟩ := finishList_spec db pid l.id
      { (finishList db pid l.id
          { sl with items := sl.items.filter (fun it => it.shopping_list_id ≠ l.id) }).1 with
        items := (finishList db pid l.id
          { sl with items := sl.items.filter (fun it => it.shopping_list_id ≠ l.id) }).1.items.filter
          (fun it => it.shopping_list_id ≠ l.id) } hno2
    have hrun2 := getShoppingList_pos db (finishList db pid l.id
      { sl with items := sl.items.filter (fun it => it.shopping_list_id ≠ l.id) }).1 uid pid hOwn
    refine ⟨h200, ?_, ?_, ?_⟩
    · rw [hst1, hrun2]
    · rw [hst1, hrun2, hout1]
      show some (finishList db pid
          (resolveList (finishList db pid l.id
            { sl with items := sl.items.filter (fun it => it.shopping_list_id ≠ l.id) }).1 pid).1
          (resolveList (finishList db pid l.id
            { sl with items := sl.items.filter (fun it => it.shopping_list_id ≠ l.id) }).1 pid).2).2 = _
      rw [hres']
      show some (finishList db pid l.id
        { (finishList db pid l.id
            { sl with items := sl.items.filter (fun it => it.shopping_list_id ≠ l.id) }).1 with
          items := (finishList db pid l.id
            { sl with items := sl.items.filter (fun it => it.shopping_list_id ≠ l.id) }).1.items.filter
            (fun it => it.shopping_list_id ≠ l.id) }).2 = _
      rw [ho2, ho1]
    · refine ⟨⟨l.id, pid,
        sortItems (aggregateItems (planIngredients db pid)),
        slTotalCost (aggregateItems (planIngredients db pid))⟩, ?_, rfl, rfl, ?_⟩
      · rw [hout1, ho1]
      · rw [hst1]
        exact hi1

/-- Witness for C5 on the two-recipe egg database and an empty shopping-list
store. -/
theorem claim_C5_idempotent_regeneration_witness :
    (getShoppingList eggDB ⟨[], [], 1⟩ 7 1).1 = 200 ∧
    (getShoppingList eggDB (getShoppingList eggDB ⟨[], [], 1⟩ 7 1).2.1 7 1).1 = 200 ∧
    (getShoppingList eggDB (getShoppingList eggDB ⟨[], [], 1⟩ 7 1).2.1 7 1).2.2 =
      (getShoppingList eggDB ⟨[], [], 1⟩ 7 1).2.2 ∧
    (∃ out : SLOutput, (getShoppingList eggDB ⟨[], [], 1⟩ 7 1).2.2 = some out ∧
      out.items = sortItems (aggregateItems (planIngredients eggDB 1)) ∧
      out.total_cost = slTotalCost (aggregateItems (planIngredients eggDB 1)) ∧
      (((getShoppingList eggDB ⟨[], [], 1⟩ 7 1).2.1.items.filter
          (fun it => it.shopping_list_id = out.shopping_list_id)).map
        (fun it => it.item)) = aggregateItems (planIngredients eggDB 1)) :=
  claim_C5_idempotent_regeneration eggDB ⟨[], [], 1⟩ 7 1 (by decide)
    (fun _ => fun it hit => absurd hit (List.not_mem_nil it))

end MFS
